import Mathlib

/-!
Verification development for the recon-engine pipeline orchestrator
(cmd/recon-engine/main.go, the variant with deep discovery and
fingerprinting). Pure functions and the per-line processing loops are
embedded directly; the concurrent fan-in is embedded as a small-step
transition system over an explicit pipeline state.
-/

namespace ReconEngine

/-- Minimal JSON value tree, used to state facts about what the program
serializes (in particular which object fields are present or absent
under the Go omitempty convention). -/
inductive Json where
  | str (s : String)
  | num (n : Int)
  | arr (xs : List Json)
  | obj (fields : List (String × Json))

/-- Field lookup on a JSON object; none on non-objects or missing keys. -/
def Json.lookup (j : Json) (k : String) : Option Json :=
  match j with
  | .obj fields => fields.lookup k
  | _ => none

/-- Infrastructure metadata captured from the deep discovery source
(main.go, the Infrastructure struct local to main): network number and
organization description. -/
structure Infrastructure where
  asn : Int
  org : String
deriving DecidableEq

/-- Decoded transform-stage observation (main.go, HttpxResult). -/
structure HttpxResult where
  input : String
  url : String
  status_code : Int
  title : String
  tech : List String
  webserver : String
deriving DecidableEq

/-- One address descriptor inside a deep-discovery record
(main.go, AmassResult.Addresses element). -/
structure AmassAddress where
  asn : Int
  desc : String
deriving DecidableEq

/-- Decoded deep-discovery record (main.go, AmassResult). -/
structure AmassResult where
  name : String
  domain : String
  addresses : List AmassAddress
deriving DecidableEq

/-- Unified output record (main.go, Result). The three trailing fields
carry the Go omitempty convention: asn and org are omitted from the
serialized object when they are the empty string, versions when it is
nil (none) or the empty map. -/
structure Result where
  timestamp : String
  subdomain : String
  status_code : Int
  title : String
  tech_stack : List String
  vulnerabilities : List Json
  source : String
  asn : String
  org : String
  versions : Option (List (String × String))

/-- Technology extraction from a transform observation
(main.go, extractTech of the richer variant): a copy of the tech list. -/
def extractTech (h : HttpxResult) : List String :=
  h.tech

/-- Building the unified record from one decoded transform observation,
including the Infrastructure Index join (main.go lines 213 to 231).
The wall-clock reading is abstracted as the parameter now. -/
def buildRecord (now : String) (infra : String → Option Infrastructure)
    (h : HttpxResult) : Result :=
  let base : Result :=
    { timestamp := now
      subdomain := h.input
      status_code := h.status_code
      title := h.title
      tech_stack := extractTech h
      vulnerabilities := []
      source := "recon_pipeline"
      asn := ""
      org := ""
      versions := none }
  match infra h.input with
  | some inf => { base with asn := "AS" ++ toString inf.asn, org := inf.org }
  | none => base

/-- Serialization of a Result as performed by the JSON encoder on the
Go struct tags: fields in declaration order, asn and org dropped when
empty, versions dropped when nil or empty. -/
def encodeResult (r : Result) : Json :=
  .obj
    ([("timestamp", .str r.timestamp),
      ("subdomain", .str r.subdomain),
      ("status_code", .num r.status_code),
      ("title", .str r.title),
      ("tech_stack", .arr (r.tech_stack.map .str)),
      ("vulnerabilities", .arr r.vulnerabilities),
      ("source", .str r.source)]
     ++ (if r.asn = "" then [] else [("asn", Json.str r.asn)])
     ++ (if r.org = "" then [] else [("org", Json.str r.org)])
     ++ (match r.versions with
         | none => []
         | some vs =>
           if vs = [] then []
           else [("versions", Json.obj (vs.map (fun p => (p.1, Json.str p.2))))]))

/-- The dedup consumer loop (main.go lines 190 to 199): reads the
conduit in arrival order, feeds each identifier not yet seen to the
transform stage input, and remembers it. Returns the fed sequence. -/
def feedUnique (seen : List String) : List String → List String
  | [] => []
  | sub :: rest =>
    if sub ∈ seen then feedUnique seen rest
    else sub :: feedUnique (sub :: seen) rest

/-- The enrichment merge loop (main.go lines 256 to 264): for each
component name in order, append it to the technology list unless an
equal entry is already present. -/
def mergeTech : List String → List String → List String
  | tech, [] => tech
  | tech, p :: ps => mergeTech (if p ∈ tech then tech else tech ++ [p]) ps

theorem feedUnique_count (xs : List String) (seen : List String) (a : String) :
    (feedUnique seen xs).count a = if a ∈ xs ∧ a ∉ seen then 1 else 0 := by
  induction xs generalizing seen with
  | nil => simp [feedUnique]
  | cons sub rest ih =>
    by_cases hmem : sub ∈ seen
    · rw [feedUnique, if_pos hmem, ih]
      by_cases hax : a = sub
      · subst hax
        simp [hmem]
      · simp [List.mem_cons, hax]
    · rw [feedUnique, if_neg hmem]
      by_cases hax : a = sub
      · subst hax
        rw [List.count_cons_self, ih]
        simp [hmem]
      · rw [List.count_cons_of_ne hax, ih]
        simp [List.mem_cons, hax]

/-- C1: the dedup consumer feeds the transform stage each distinct
identifier arriving on the conduit exactly once, and omits none: for
every arrival sequence, the count of any identifier in the fed
sequence is one when it occurred at all and zero otherwise. -/
theorem recon_dedup_exact (xs : List String) (a : String) :
    (feedUnique [] xs).count a = if a ∈ xs then 1 else 0 := by
  rw [feedUnique_count]
  simp

theorem mem_mergeTech (t p : List String) (a : String) :
    a ∈ mergeTech t p ↔ a ∈ t ∨ a ∈ p := by
  induction p generalizing t with
  | nil => simp [mergeTech]
  | cons x ps ih =>
    rw [mergeTech, ih]
    by_cases hx : x ∈ t
    · rw [if_pos hx]
      constructor
      · rintro (h | h)
        · exact Or.inl h
        · exact Or.inr (List.mem_cons_of_mem _ h)
      · rintro (h | h)
        · exact Or.inl h
        · rcases List.mem_cons.mp h with h | h
          · exact Or.inl (h ▸ hx)
          · exact Or.inr h
    · rw [if_neg hx]
      simp only [List.mem_append, List.mem_singleton, List.mem_cons]
      tauto

theorem mergeTech_nodup (t p : List String) (h : t.Nodup) :
    (mergeTech t p).Nodup := by
  induction p generalizing t with
  | nil => exact h
  | cons x ps ih =>
    rw [mergeTech]
    by_cases hx : x ∈ t
    · rw [if_pos hx]; exact ih t h
    · rw [if_neg hx]
      refine ih _ ?_
      simp [List.nodup_append, h, hx]

theorem mergeTech_eq_of_sub (t p : List String) (h : ∀ x ∈ p, x ∈ t) :
    mergeTech t p = t := by
  induction p with
  | nil => rfl
  | cons x ps ih =>
    rw [mergeTech, if_pos (h x (List.mem_cons_self x ps))]
    exact ih (fun y hy => h y (List.mem_cons_of_mem _ hy))

/-- C7: merging enrichment component names into the technology list is
idempotent union by value: on a duplicate-free technology list the
merge result is again duplicate-free, and merging the same names a
second time changes nothing. -/
theorem recon_merge_idempotent (t p : List String) (h : t.Nodup) :
    (mergeTech t p).Nodup ∧ mergeTech (mergeTech t p) p = mergeTech t p := by
  refine ⟨mergeTech_nodup t p h, ?_⟩
  exact mergeTech_eq_of_sub _ _ (fun x hx => (mem_mergeTech t p x).mpr (Or.inr hx))

/-- Witness for C7 at a concrete technology list and component set. -/
theorem recon_merge_idempotent_witness :
    (mergeTech ["nginx"] ["nginx", "PHP"]).Nodup ∧
      mergeTech (mergeTech ["nginx"] ["nginx", "PHP"]) ["nginx", "PHP"] =
        mergeTech ["nginx"] ["nginx", "PHP"] :=
  recon_merge_idempotent ["nginx"] ["nginx", "PHP"] (by decide)

/-- Per-plugin payload in a fingerprinting record
(main.go, WhatWebResult.Plugins values). -/
structure PluginInfo where
  strs : List String
  version : List String
deriving DecidableEq

/-- Decoded fingerprinting record (main.go, WhatWebResult). The Go map
of plugins is modelled as an association list in some iteration
order. -/
structure WhatWebResult where
  target : String
  plugins : List (String × PluginInfo)
deriving DecidableEq

/-- Outcome of one fingerprinting process invocation, as observed by
the loop in main.go lines 238 to 244: the spawn (or non-zero exit) can
fail, the captured output can fail structured decode, or a list of
records is decoded. -/
inductive WhatWebRun where
  | spawnFailure
  | decodeFailure
  | decoded (results : List WhatWebResult)

/-- Version map extraction (main.go lines 245 to 250): every plugin
with a non-empty version list contributes its name mapped to the
comma-joined versions. -/
def extractVersions (plugins : List (String × PluginInfo)) :
    List (String × String) :=
  plugins.filterMap (fun q =>
    if q.2.version = [] then none
    else some (q.1, String.intercalate ", " q.2.version))

/-- Applying one decoded fingerprinting record to the unified record
(main.go lines 244 to 264): set the version map and merge the plugin
names into the technology list. -/
def applyWhatWeb (w : WhatWebResult) (r : Result) : Result :=
  { r with
    versions := some (extractVersions w.plugins)
    tech_stack := mergeTech r.tech_stack (w.plugins.map Prod.fst) }

/-- The conditional enrichment step (main.go lines 233 to 267). The
returned Bool records whether the external fingerprinting process was
invoked: only when fingerprinting is enabled and the status code is
positive. Enrichment modifies the record only when the run decoded a
non-empty result list; every failure leaves the record untouched. -/
def enrichStep (fingerprint : Bool) (h : HttpxResult) (run : WhatWebRun)
    (r : Result) : Result × Bool :=
  if fingerprint = true ∧ h.status_code > 0 then
    (match run with
     | .decoded (w :: _) => applyWhatWeb w r
     | _ => r,
     true)
  else (r, false)

/-- C6: the fingerprinting process is invoked exactly when enrichment
is enabled and the record status is positive (live host), and every
enrichment failure — spawn failure, undecodable output, or an empty
decoded result list — leaves the record exactly as built, which in
particular carries no version map. -/
theorem recon_enrich_guard_and_failure (f : Bool) (h : HttpxResult)
    (run : WhatWebRun) (r : Result)
    (hfail : ∀ w ws, run ≠ .decoded (w :: ws)) :
    (∀ r2 : WhatWebRun,
       (enrichStep f h r2 r).2 = true ↔ (f = true ∧ h.status_code > 0)) ∧
    (enrichStep f h run r).1 = r ∧
    (∀ (now : String) (infra : String → Option Infrastructure)
       (hx : HttpxResult), (buildRecord now infra hx).versions = none) := by
  refine ⟨?_, ?_, ?_⟩
  · intro r2
    unfold enrichStep
    by_cases hc : f = true ∧ h.status_code > 0
    · rw [if_pos hc]; simpa using hc
    · rw [if_neg hc]; simpa using hc
  · unfold enrichStep
    by_cases hc : f = true ∧ h.status_code > 0
    · rw [if_pos hc]
      cases run with
      | spawnFailure => rfl
      | decodeFailure => rfl
      | decoded results =>
        cases results with
        | nil => rfl
        | cons w ws => exact absurd rfl (hfail w ws)
    · rw [if_neg hc]
  · intro now infra hx
    unfold buildRecord
    cases infra hx.input <;> rfl

/-- Witness for C6 at a concrete record and a spawn failure. -/
theorem recon_enrich_guard_and_failure_witness :
    (∀ r2 : WhatWebRun,
       (enrichStep true ⟨"a", "https://a", 200, "T", [], ""⟩ r2
          (buildRecord "ts" (fun _ => none)
            ⟨"a", "https://a", 200, "T", [], ""⟩)).2 = true ↔
         (true = true ∧ (⟨"a", "https://a", 200, "T", [], ""⟩ :
             HttpxResult).status_code > 0)) ∧
    (enrichStep true ⟨"a", "https://a", 200, "T", [], ""⟩ .spawnFailure
       (buildRecord "ts" (fun _ => none)
         ⟨"a", "https://a", 200, "T", [], ""⟩)).1 =
      buildRecord "ts" (fun _ => none) ⟨"a", "https://a", 200, "T", [], ""⟩ ∧
    (∀ (now : String) (infra : String → Option Infrastructure)
       (hx : HttpxResult), (buildRecord now infra hx).versions = none) :=
  recon_enrich_guard_and_failure true ⟨"a", "https://a", 200, "T", [], ""⟩
    .spawnFailure
    (buildRecord "ts" (fun _ => none) ⟨"a", "https://a", 200, "T", [], ""⟩)
    (by intro w ws hcon; cases hcon)

/-- The transform-stage consumption loop (main.go lines 202 to 272):
decode each output line, skip it on decode failure, otherwise build
the unified record, run the conditional enrichment step, and emit.
Structured decode of a raw line and the per-host fingerprinting
outcome are environment parameters; the wall clock is abstracted as a
fixed reading. -/
def transformLoop (decode : String → Option HttpxResult) (now : String)
    (infra : String → Option Infrastructure) (fingerprint : Bool)
    (ww : HttpxResult → WhatWebRun) : List String → List Result
  | [] => []
  | line :: rest =>
    match decode line with
    | none => transformLoop decode now infra fingerprint ww rest
    | some h =>
      (enrichStep fingerprint h (ww h) (buildRecord now infra h)).1 ::
        transformLoop decode now infra fingerprint ww rest

/-- The deep-discovery consumption loop (main.go lines 136 to 155):
decode each line, skip undecodable lines and records with an empty
name, otherwise emit the name and, when an address is present, record
the first address in the Infrastructure Index. Returns the emitted
names and the index writes in order. -/
def amassLoop (decode : String → Option AmassResult) :
    List String → List String × List (String × Infrastructure)
  | [] => ([], [])
  | line :: rest =>
    match decode line with
    | none => amassLoop decode rest
    | some ar =>
      if ar.name = "" then amassLoop decode rest
      else
        let tail := amassLoop decode rest
        (ar.name :: tail.1,
         match ar.addresses with
         | [] => tail.2
         | a :: _ => (ar.name, ⟨a.asn, a.desc⟩) :: tail.2)

theorem transformLoop_skip (decode : String → Option HttpxResult)
    (now : String) (infra : String → Option Infrastructure)
    (fingerprint : Bool) (ww : HttpxResult → WhatWebRun)
    (bad : String) (hbad : decode bad = none) (l1 l2 : List String) :
    transformLoop decode now infra fingerprint ww (l1 ++ bad :: l2) =
      transformLoop decode now infra fingerprint ww (l1 ++ l2) := by
  induction l1 with
  | nil => simp [transformLoop, hbad]
  | cons a l1 ih =>
    simp only [List.cons_append, transformLoop]
    cases decode a <;> simp [ih]

theorem amassLoop_skip (decode : String → Option AmassResult)
    (bad : String) (hbad : decode bad = none) (l1 l2 : List String) :
    amassLoop decode (l1 ++ bad :: l2) = amassLoop decode (l1 ++ l2) := by
  induction l1 with
  | nil => simp [amassLoop, hbad]
  | cons a l1 ih =>
    simp only [List.cons_append, amassLoop]
    cases decode a with
    | none => exact ih
    | some ar =>
      by_cases hname : ar.name = ""
      · simp [hname, ih]
      · simp [hname, ih]

/-- C8: a raw line that fails structured decode is skipped at every
decode point: in the transform loop and in the deep-discovery loop the
run over a sequence containing the bad line equals the run with the
line removed (no record, no index write, no termination), and at the
enrichment decode point the undecodable output leaves the record
unchanged. -/
theorem recon_skip_malformed (decode : String → Option HttpxResult)
    (decodeA : String → Option AmassResult) (now : String)
    (infra : String → Option Infrastructure) (fingerprint : Bool)
    (ww : HttpxResult → WhatWebRun) (bad badA : String)
    (hbad : decode bad = none) (hbadA : decodeA badA = none)
    (l1 l2 m1 m2 : List String) (h : HttpxResult) (r : Result) :
    transformLoop decode now infra fingerprint ww (l1 ++ bad :: l2) =
      transformLoop decode now infra fingerprint ww (l1 ++ l2) ∧
    amassLoop decodeA (m1 ++ badA :: m2) = amassLoop decodeA (m1 ++ m2) ∧
    (enrichStep fingerprint h .decodeFailure r).1 = r :=
  ⟨transformLoop_skip decode now infra fingerprint ww bad hbad l1 l2,
   amassLoop_skip decodeA badA hbadA m1 m2,
   (recon_enrich_guard_and_failure fingerprint h .decodeFailure r
     (by intro w ws hcon; cases hcon)).2.1⟩

/-- Witness for C8 with concrete loops in which one line decodes and
one fails to decode. -/
theorem recon_skip_malformed_witness :
    transformLoop
        (fun s => if s = "ok" then
           some ⟨"a", "https://a", 200, "T", [], ""⟩ else none)
        "ts" (fun _ => none) false (fun _ => .spawnFailure)
        (["ok"] ++ "bad" :: []) =
      transformLoop
        (fun s => if s = "ok" then
           some ⟨"a", "https://a", 200, "T", [], ""⟩ else none)
        "ts" (fun _ => none) false (fun _ => .spawnFailure) (["ok"] ++ []) ∧
    amassLoop (fun _ => none) (([] : List String) ++ "junk" :: []) =
      amassLoop (fun _ => none) (([] : List String) ++ []) ∧
    (enrichStep false ⟨"a", "https://a", 200, "T", [], ""⟩ .decodeFailure
       (buildRecord "ts" (fun _ => none)
         ⟨"a", "https://a", 200, "T", [], ""⟩)).1 =
      buildRecord "ts" (fun _ => none) ⟨"a", "https://a", 200, "T", [], ""⟩ :=
  recon_skip_malformed
    (fun s => if s = "ok" then
       some ⟨"a", "https://a", 200, "T", [], ""⟩ else none)
    (fun _ => none) "ts" (fun _ => none) false (fun _ => .spawnFailure)
    "bad" "junk" (by decide) rfl ["ok"] [] [] []
    ⟨"a", "https://a", 200, "T", [], ""⟩
    (buildRecord "ts" (fun _ => none) ⟨"a", "https://a", 200, "T", [], ""⟩)

/-- One attempted external process invocation: binary name and
argument vector. -/
structure Spawn where
  bin : String
  args : List String
deriving DecidableEq

/-- Startup environment: which binaries resolve on the search path,
and the error text, if any, of each fallible pipe or spawn operation
(none means success). -/
structure Env where
  pathHas : String → Bool
  stdinPipeErr : Option String
  stdoutPipeErr : Option String
  httpxStartErr : Option String

/-- Outcome of running the startup sequence: either the process exits
with a code, the JSON objects written to standard output, the lines
written to standard error, and the external processes whose spawn was
attempted before the exit; or the pipeline is running with the listed
spawn attempts. -/
inductive Outcome where
  | exit (code : Nat) (stdout : List Json) (stderrLines : List String)
      (spawned : List Spawn)
  | running (spawned : List Spawn)

/-- The JSON objects written to standard output by an outcome. -/
def Outcome.stdout : Outcome → List Json
  | .exit _ out _ _ => out
  | .running _ => []

/-- The required-binary list for a configuration (main.go lines 277 to
287): subfinder, httpx and nmap always, amass when deep discovery is
enabled, whatweb when fingerprinting is enabled. -/
def requiredBins (deep fingerprint : Bool) : List String :=
  ["subfinder", "httpx", "nmap"]
    ++ (if deep then ["amass"] else [])
    ++ (if fingerprint then ["whatweb"] else [])

/-- The pre-flight check (main.go lines 288 to 298): for the first
required binary that does not resolve, the error object written to
standard output; none when all resolve. The encoder emits the two map
keys in sorted order: error before message. -/
def checkBinaries (deep fingerprint : Bool) (pathHas : String → Bool) :
    Option Json :=
  match (requiredBins deep fingerprint).find? (fun bin => !(pathHas bin)) with
  | some bin =>
    some (.obj [("error", .str ("Missing binary: " ++ bin)),
                ("message", .str "Please install required tools in PATH")])
  | none => none

/-- The discovery spawn attempts made before the transform stage is
set up (main.go lines 99 to 157): subfinder always, amass when deep
discovery is enabled. -/
def discoverySpawns (deep : Bool) (target : String) : List Spawn :=
  [⟨"subfinder", ["-d", target, "-silent"]⟩]
    ++ (if deep then
          [⟨"amass", ["enum", "-passive", "-d", target, "-json", "/dev/stdout"]⟩]
        else [])

/-- The startup sequence of main (main.go lines 64 to 186): pre-flight
binary check with JSON error on standard output and exit 1 on the
first missing binary; then discovery goroutine spawns; then transform
stage pipe construction and spawn, where any failure goes through
fatalError, which writes one plain-text line to standard error and
exits 1; finally the background nmap scan spawn attempt. -/
def startup (deep fingerprint : Bool) (target : String) (env : Env) :
    Outcome :=
  match checkBinaries deep fingerprint env.pathHas with
  | some errObj => .exit 1 [errObj] [] []
  | none =>
    match env.stdinPipeErr with
    | some e =>
      .exit 1 [] ["Error: Failed to create httpx stdin pipe: " ++ e]
        (discoverySpawns deep target)
    | none =>
    match env.stdoutPipeErr with
    | some e =>
      .exit 1 [] ["Error: Failed to create httpx stdout pipe: " ++ e]
        (discoverySpawns deep target)
    | none =>
    match env.httpxStartErr with
    | some e =>
      .exit 1 [] ["Error: Failed to start httpx: " ++ e]
        (discoverySpawns deep target)
    | none =>
      .running
        (discoverySpawns deep target
          ++ [⟨"httpx", ["-silent", "-json", "-title", "-tech-detect",
                         "-status-code"]⟩,
              ⟨"nmap", ["-F", "--top-ports", "100", target, "-oN",
                        "nmap-scan.txt"]⟩])

theorem startup_missing_bin (deep fingerprint : Bool) (target : String)
    (env : Env)
    (h : ∃ b ∈ requiredBins deep fingerprint, env.pathHas b = false) :
    ∃ b, b ∈ requiredBins deep fingerprint ∧ env.pathHas b = false ∧
      startup deep fingerprint target env =
        .exit 1
          [.obj [("error", Json.str ("Missing binary: " ++ b)),
                 ("message", Json.str "Please install required tools in PATH")]]
          [] [] := by
  have hfind : ((requiredBins deep fingerprint).find?
      (fun bin => !(env.pathHas bin))).isSome := by
    obtain ⟨b, hb, hmiss⟩ := h
    rw [List.find?_isSome]
    exact ⟨b, hb, by simp [hmiss]⟩
  obtain ⟨b, hb⟩ := Option.isSome_iff_exists.mp hfind
  refine ⟨b, List.mem_of_find?_eq_some hb, ?_, ?_⟩
  · have := List.find?_some hb
    simpa using this
  · unfold startup checkBinaries
    rw [hb]

/-- C5: when some binary required by the active configuration does not
resolve on the search path, startup exits 1 having written exactly one
JSON object naming a missing binary on standard output, nothing on
standard error, and having attempted no external process spawn. -/
theorem recon_missing_binary (deep fingerprint : Bool) (target : String)
    (env : Env)
    (h : ∃ b ∈ requiredBins deep fingerprint, env.pathHas b = false) :
    ∃ b, b ∈ requiredBins deep fingerprint ∧ env.pathHas b = false ∧
      startup deep fingerprint target env =
        .exit 1
          [.obj [("error", Json.str ("Missing binary: " ++ b)),
                 ("message", Json.str "Please install required tools in PATH")]]
          [] [] :=
  startup_missing_bin deep fingerprint target env h

/-- Witness for C5: configuration with both toggles off and a search
path lacking nmap. -/
theorem recon_missing_binary_witness :
    ∃ b, b ∈ requiredBins false false ∧
      (fun s => !(s == "nmap")) b = false ∧
      startup false false "example.com"
          ⟨fun s => !(s == "nmap"), none, none, none⟩ =
        .exit 1
          [.obj [("error", Json.str ("Missing binary: " ++ b)),
                 ("message", Json.str "Please install required tools in PATH")]]
          [] [] :=
  recon_missing_binary false false "example.com"
    ⟨fun s => !(s == "nmap"), none, none, none⟩
    ⟨"nmap", by decide, by decide⟩

/-- C4 amended, class-specific: a missing required binary makes
startup exit 1 with exactly one JSON error object of shape error,
message on standard output, nothing on standard error and no spawn
attempt, while with every required binary resolvable a pipe
construction failure or a transform spawn failure makes startup exit 1
with nothing on standard output and exactly one plain-text diagnostic
line on standard error. -/
theorem recon_fatal_startup_amended (deep fingerprint : Bool)
    (target : String) (env : Env) :
    ((∃ b ∈ requiredBins deep fingerprint, env.pathHas b = false) →
       ∃ b, b ∈ requiredBins deep fingerprint ∧ env.pathHas b = false ∧
         startup deep fingerprint target env =
           .exit 1
             [.obj [("error", Json.str ("Missing binary: " ++ b)),
                    ("message",
                     Json.str "Please install required tools in PATH")]]
             [] []) ∧
    ((∀ b ∈ requiredBins deep fingerprint, env.pathHas b = true) →
       (env.stdinPipeErr ≠ none ∨ env.stdoutPipeErr ≠ none ∨
         env.httpxStartErr ≠ none) →
       ∃ line, startup deep fingerprint target env =
         .exit 1 [] [line] (discoverySpawns deep target)) := by
  constructor
  · exact startup_missing_bin deep fingerprint target env
  · obtain ⟨ph, sinE, soutE, hsE⟩ := env
    intro hall hfail
    have hfnone : (requiredBins deep fingerprint).find?
        (fun bin => !(ph bin)) = none := by
      rw [List.find?_eq_none]
      intro b hb
      have hph : ph b = true := hall b hb
      simp [hph]
    have hcb : checkBinaries deep fingerprint ph = none := by
      unfold checkBinaries
      rw [hfnone]
    cases sinE with
    | some e =>
      refine ⟨"Error: Failed to create httpx stdin pipe: " ++ e, ?_⟩
      unfold startup
      rw [hcb]
    | none =>
      cases soutE with
      | some e =>
        refine ⟨"Error: Failed to create httpx stdout pipe: " ++ e, ?_⟩
        unfold startup
        rw [hcb]
      | none =>
        cases hsE with
        | some e =>
          refine ⟨"Error: Failed to start httpx: " ++ e, ?_⟩
          unfold startup
          rw [hcb]
        | none =>
          rcases hfail with hf | hf | hf <;> exact absurd rfl hf

/-- Environment for the C4 counterexample: every binary resolves, but
construction of the transform stage input pipe fails. -/
def pipeFailEnv : Env :=
  ⟨fun _ => true, some "too many open files", none, none⟩

/-- C4 counterexample: a pipe construction failure is a fatal startup
failure (exit code 1), yet the program writes no JSON object at all on
standard output — the diagnostic goes to standard error — refuting the
claim that every fatal startup failure emits exactly one JSON object
on standard output. -/
theorem recon_fatal_startup_cex :
    startup false false "example.com" pipeFailEnv =
      .exit 1 []
        ["Error: Failed to create httpx stdin pipe: too many open files"]
        (discoverySpawns false "example.com") ∧
    (startup false false "example.com" pipeFailEnv).stdout.length = 0 :=
  ⟨rfl, rfl⟩

/-- Witness for the amended C4, exercising both failure classes: a
search path lacking subfinder hits the missing-binary conclusion, and
the pipe-failure environment hits the stderr-line conclusion. -/
theorem recon_fatal_startup_amended_witness :
    (∃ b, b ∈ requiredBins false false ∧
       (⟨fun s => !(s == "subfinder"), none, none, none⟩ : Env).pathHas b =
         false ∧
       startup false false "example.com"
           ⟨fun s => !(s == "subfinder"), none, none, none⟩ =
         .exit 1
           [.obj [("error", Json.str ("Missing binary: " ++ b)),
                  ("message",
                   Json.str "Please install required tools in PATH")]]
           [] []) ∧
    (∃ line, startup false false "example.com" pipeFailEnv =
       .exit 1 [] [line] (discoverySpawns false "example.com")) :=
  ⟨(recon_fatal_startup_amended false false "example.com"
      ⟨fun s => !(s == "subfinder"), none, none, none⟩).1
     ⟨"subfinder", by decide, by decide⟩,
   (recon_fatal_startup_amended false false "example.com" pipeFailEnv).2
     (fun b _ => rfl) (Or.inl (fun hcon => Option.noConfusion hcon))⟩

/-- The output stream of the running pipeline (main.go lines 202 to
272) as a function of its actual inputs. The first parameter stands
for the content of the nmap scan file: main starts nmap detached with
its output directed to nmap-scan.txt and never reads it, so the
parameter is unused, exactly as in the source. -/
def pipelineOutput (nmapScan : List String)
    (decode : String → Option HttpxResult) (now : String)
    (infra : String → Option Infrastructure) (fingerprint : Bool)
    (ww : HttpxResult → WhatWebRun) (lines : List String) : List Result :=
  transformLoop decode now infra fingerprint ww lines

/-- C10: nmap is in the required-binary set of every configuration,
every successful startup attempts the nmap spawn scanning the target
with output file nmap-scan.txt, and no pipeline stage consumes the
scan output: the emitted records are invariant under the scan file
content. -/
theorem recon_nmap_always (deep fingerprint : Bool) (target : String)
    (env : Env) (sp : List Spawn)
    (h : startup deep fingerprint target env = .running sp) :
    "nmap" ∈ requiredBins deep fingerprint ∧
    (⟨"nmap", ["-F", "--top-ports", "100", target, "-oN",
               "nmap-scan.txt"]⟩ : Spawn) ∈ sp ∧
    (∀ (n1 n2 : List String) (decode : String → Option HttpxResult)
       (now : String) (infra : String → Option Infrastructure)
       (fp : Bool) (ww : HttpxResult → WhatWebRun) (lines : List String),
       pipelineOutput n1 decode now infra fp ww lines =
         pipelineOutput n2 decode now infra fp ww lines) := by
  refine ⟨by simp [requiredBins], ?_, fun _ _ _ _ _ _ _ _ => rfl⟩
  obtain ⟨ph, sinE, soutE, hsE⟩ := env
  cases hcb : checkBinaries deep fingerprint ph with
  | some errObj => simp only [startup, hcb] at h; cases h
  | none =>
    cases sinE with
    | some e => simp only [startup, hcb] at h; cases h
    | none =>
      cases soutE with
      | some e => simp only [startup, hcb] at h; cases h
      | none =>
        cases hsE with
        | some e => simp only [startup, hcb] at h; cases h
        | none =>
          simp only [startup, hcb, Outcome.running.injEq] at h
          rw [← h]
          simp

/-- Environment in which every startup operation succeeds. -/
def allOkEnv : Env := ⟨fun _ => true, none, none, none⟩

/-- Witness for C10 at the all-success environment with both toggles
off. -/
theorem recon_nmap_always_witness :
    "nmap" ∈ requiredBins false false ∧
    (⟨"nmap", ["-F", "--top-ports", "100", "example.com", "-oN",
               "nmap-scan.txt"]⟩ : Spawn) ∈
      (discoverySpawns false "example.com"
        ++ [⟨"httpx", ["-silent", "-json", "-title", "-tech-detect",
                       "-status-code"]⟩,
            ⟨"nmap", ["-F", "--top-ports", "100", "example.com", "-oN",
                      "nmap-scan.txt"]⟩]) ∧
    (∀ (n1 n2 : List String) (decode : String → Option HttpxResult)
       (now : String) (infra : String → Option Infrastructure)
       (fp : Bool) (ww : HttpxResult → WhatWebRun) (lines : List String),
       pipelineOutput n1 decode now infra fp ww lines =
         pipelineOutput n2 decode now infra fp ww lines) :=
  recon_nmap_always false false "example.com" allOkEnv _ rfl

/-- Decimal digit character for the last decimal digit of a number. -/
def dc (k : Nat) : Char :=
  match k % 10 with
  | 0 => '0'
  | 1 => '1'
  | 2 => '2'
  | 3 => '3'
  | 4 => '4'
  | 5 => '5'
  | 6 => '6'
  | 7 => '7'
  | 8 => '8'
  | _ => '9'

/-- Modelled from the spec: the wall-clock timestamp rendering used by
the emitter. The Go standard-library formatter invoked as
time.Now().Format with the RFC3339 layout is outside the repository;
it is modelled as the zero-padded UTC rendering
year-month-dayThour:minute:secondZ of a clock reading. -/
def formatRFC3339 (year month day hour minute second : Nat) : String :=
  String.mk
    [dc (year / 1000), dc (year / 100), dc (year / 10), dc year, '-',
     dc (month / 10), dc month, '-', dc (day / 10), dc day, 'T',
     dc (hour / 10), dc hour, ':', dc (minute / 10), dc minute, ':',
     dc (second / 10), dc second, 'Z']

/-- Shape check for a UTC RFC3339 timestamp: four digit year, two
digit month, day, hour, minute and second, with the fixed separators
and the Z zone suffix. -/
def isRFC3339Chars : List Char → Bool
  | [y1, y2, y3, y4, s1, m1, m2, s2, d1, d2, t, h1, h2, c1, i1, i2, c2,
     e1, e2, z] =>
    y1.isDigit && y2.isDigit && y3.isDigit && y4.isDigit && (s1 == '-') &&
    m1.isDigit && m2.isDigit && (s2 == '-') && d1.isDigit && d2.isDigit &&
    (t == 'T') && h1.isDigit && h2.isDigit && (c1 == ':') && i1.isDigit &&
    i2.isDigit && (c2 == ':') && e1.isDigit && e2.isDigit && (z == 'Z')
  | _ => false

/-- Well-formedness of a timestamp string. -/
def isRFC3339 (s : String) : Bool :=
  isRFC3339Chars s.toList

theorem dc_isDigit (k : Nat) : (dc k).isDigit = true := by
  unfold dc
  have h10 : k % 10 < 10 := Nat.mod_lt _ (by decide)
  generalize k % 10 = m at h10 ⊢
  interval_cases m <;> decide

theorem formatRFC3339_wellFormed (y mo d h mi s : Nat) :
    isRFC3339 (formatRFC3339 y mo d h mi s) = true := by
  show isRFC3339Chars _ = true
  rw [show (formatRFC3339 y mo d h mi s).toList =
    [dc (y / 1000), dc (y / 100), dc (y / 10), dc y, '-',
     dc (mo / 10), dc mo, '-', dc (d / 10), dc d, 'T',
     dc (h / 10), dc h, ':', dc (mi / 10), dc mi, ':',
     dc (s / 10), dc s, 'Z'] from rfl]
  simp [isRFC3339Chars, dc_isDigit]

/-- C9: from the transform output line for a.example.com with status
200, title T and the single technology nginx, with enrichment
disabled, the emitted record carries exactly the claimed field values,
an empty vulnerability list, the fixed source marker and a well-formed
timestamp. -/
theorem recon_concrete_transform (y mo d hh mi s : Nat)
    (run : WhatWebRun) :
    ((enrichStep false ⟨"a.example.com", "https://a.example.com", 200, "T",
        ["nginx"], ""⟩ run
        (buildRecord (formatRFC3339 y mo d hh mi s) (fun _ => none)
          ⟨"a.example.com", "https://a.example.com", 200, "T",
           ["nginx"], ""⟩)).1.subdomain = "a.example.com") ∧
    ((enrichStep false ⟨"a.example.com", "https://a.example.com", 200, "T",
        ["nginx"], ""⟩ run
        (buildRecord (formatRFC3339 y mo d hh mi s) (fun _ => none)
          ⟨"a.example.com", "https://a.example.com", 200, "T",
           ["nginx"], ""⟩)).1.status_code = 200) ∧
    ((enrichStep false ⟨"a.example.com", "https://a.example.com", 200, "T",
        ["nginx"], ""⟩ run
        (buildRecord (formatRFC3339 y mo d hh mi s) (fun _ => none)
          ⟨"a.example.com", "https://a.example.com", 200, "T",
           ["nginx"], ""⟩)).1.title = "T") ∧
    ((enrichStep false ⟨"a.example.com", "https://a.example.com", 200, "T",
        ["nginx"], ""⟩ run
        (buildRecord (formatRFC3339 y mo d hh mi s) (fun _ => none)
          ⟨"a.example.com", "https://a.example.com", 200, "T",
           ["nginx"], ""⟩)).1.tech_stack = ["nginx"]) ∧
    ((enrichStep false ⟨"a.example.com", "https://a.example.com", 200, "T",
        ["nginx"], ""⟩ run
        (buildRecord (formatRFC3339 y mo d hh mi s) (fun _ => none)
          ⟨"a.example.com", "https://a.example.com", 200, "T",
           ["nginx"], ""⟩)).1.vulnerabilities = []) ∧
    ((enrichStep false ⟨"a.example.com", "https://a.example.com", 200, "T",
        ["nginx"], ""⟩ run
        (buildRecord (formatRFC3339 y mo d hh mi s) (fun _ => none)
          ⟨"a.example.com", "https://a.example.com", 200, "T",
           ["nginx"], ""⟩)).1.source = "recon_pipeline") ∧
    isRFC3339
      ((enrichStep false ⟨"a.example.com", "https://a.example.com", 200, "T",
          ["nginx"], ""⟩ run
          (buildRecord (formatRFC3339 y mo d hh mi s) (fun _ => none)
            ⟨"a.example.com", "https://a.example.com", 200, "T",
             ["nginx"], ""⟩)).1.timestamp) = true := by
  have hguard : (enrichStep false ⟨"a.example.com", "https://a.example.com",
      200, "T", ["nginx"], ""⟩ run
      (buildRecord (formatRFC3339 y mo d hh mi s) (fun _ => none)
        ⟨"a.example.com", "https://a.example.com", 200, "T",
         ["nginx"], ""⟩)).1 =
      buildRecord (formatRFC3339 y mo d hh mi s) (fun _ => none)
        ⟨"a.example.com", "https://a.example.com", 200, "T",
         ["nginx"], ""⟩ := by
    unfold enrichStep
    rw [if_neg]
    rintro ⟨hcon, -⟩
    cases hcon
  rw [hguard]
  refine ⟨rfl, rfl, rfl, rfl, rfl, rfl, ?_⟩
  exact formatRFC3339_wellFormed y mo d hh mi s

theorem encodeResult_lookup_asn (r : Result) :
    (encodeResult r).lookup "asn" =
      if r.asn = "" then none else some (Json.str r.asn) := by
  unfold encodeResult Json.lookup
  by_cases ha : r.asn = "" <;> by_cases ho : r.org = "" <;>
    rcases hv : r.versions with _ | vs <;>
      simp [ha, ho, List.lookup]

theorem encodeResult_lookup_org (r : Result) :
    (encodeResult r).lookup "org" =
      if r.org = "" then none else some (Json.str r.org) := by
  unfold encodeResult Json.lookup
  by_cases ha : r.asn = "" <;> by_cases ho : r.org = "" <;>
    rcases hv : r.versions with _ | vs <;>
      simp [ha, ho, List.lookup]

theorem as_string_ne_empty (n : Int) : ("AS" ++ toString n) ≠ "" := by
  intro hcon
  have hlen := congrArg String.length hcon
  rw [String.length_append] at hlen
  rw [show ("AS" : String).length = 2 from rfl] at hlen
  rw [show ("" : String).length = 0 from rfl] at hlen
  omega

/-- C3 counterexample input: an Infrastructure Index in which the
entry for x.example.com was stored with an empty organization
description, as happens when the deep-discovery record carries an
address with no desc field. -/
def cexInfra : String → Option Infrastructure :=
  fun s => if s = "x.example.com" then some ⟨7, ""⟩ else none

/-- C3 counterexample observation for the same identifier. -/
def cexObservation : HttpxResult :=
  ⟨"x.example.com", "https://x.example.com", 200, "", [], ""⟩

/-- C3 counterexample: the Infrastructure Index entry for the
identifier exists (stored before the join lookup), yet the emitted
JSON has no org field at all, because the stored organization is the
empty string and the field carries the omitempty convention; this
refutes the claim that every identifier with an entry gets a non-empty
org field matching the entry organization. -/
theorem recon_infra_org_cex :
    cexInfra "x.example.com" = some ⟨7, ""⟩ ∧
    (encodeResult (buildRecord "ts" cexInfra cexObservation)).lookup "org" =
      none :=
  ⟨rfl, rfl⟩

/-- C3 amended: a stored entry always yields an asn field holding the
non-empty string AS followed by the entry network number in decimal;
it yields an org field equal to the entry organization exactly when
that organization is non-empty, and no org field when the stored
organization is the empty string; an identifier with no entry gets
neither field (absent, not empty strings). -/
theorem recon_infra_join_amended (now : String)
    (infra : String → Option Infrastructure) (h : HttpxResult) :
    (∀ inf, infra h.input = some inf →
       (encodeResult (buildRecord now infra h)).lookup "asn" =
         some (Json.str ("AS" ++ toString inf.asn)) ∧
       ("AS" ++ toString inf.asn) ≠ "" ∧
       (inf.org ≠ "" →
         (encodeResult (buildRecord now infra h)).lookup "org" =
           some (Json.str inf.org)) ∧
       (inf.org = "" →
         (encodeResult (buildRecord now infra h)).lookup "org" = none)) ∧
    (infra h.input = none →
       (encodeResult (buildRecord now infra h)).lookup "asn" = none ∧
       (encodeResult (buildRecord now infra h)).lookup "org" = none) := by
  constructor
  · intro inf hinf
    have hb : buildRecord now infra h =
        { timestamp := now, subdomain := h.input,
          status_code := h.status_code, title := h.title,
          tech_stack := extractTech h, vulnerabilities := [],
          source := "recon_pipeline", asn := "AS" ++ toString inf.asn,
          org := inf.org, versions := none } := by
      unfold buildRecord
      rw [hinf]
    refine ⟨?_, as_string_ne_empty inf.asn, ?_, ?_⟩
    · rw [hb, encodeResult_lookup_asn]
      show (if ("AS" ++ toString inf.asn : String) = "" then none
            else some (Json.str ("AS" ++ toString inf.asn))) =
        some (Json.str ("AS" ++ toString inf.asn))
      rw [if_neg (as_string_ne_empty inf.asn)]
    · intro hne
      rw [hb, encodeResult_lookup_org]
      show (if inf.org = "" then none else some (Json.str inf.org)) =
        some (Json.str inf.org)
      rw [if_neg hne]
    · intro he
      rw [hb, encodeResult_lookup_org]
      show (if inf.org = "" then none else some (Json.str inf.org)) = none
      rw [if_pos he]
  · intro hnone
    have hb : buildRecord now infra h =
        { timestamp := now, subdomain := h.input,
          status_code := h.status_code, title := h.title,
          tech_stack := extractTech h, vulnerabilities := [],
          source := "recon_pipeline", asn := "", org := "",
          versions := none } := by
      unfold buildRecord
      rw [hnone]
    rw [hb, encodeResult_lookup_asn, encodeResult_lookup_org]
    exact ⟨if_pos rfl, if_pos rfl⟩

/-- Witness infrastructure index storing a non-empty organization. -/
def witInfra : String → Option Infrastructure :=
  fun s => if s = "a.example.com" then some ⟨13335, "CLOUDFLARENET"⟩ else none

/-- Witness observation for the stored identifier. -/
def witObservation : HttpxResult :=
  ⟨"a.example.com", "https://a.example.com", 200, "T", ["nginx"], ""⟩

/-- Witness for the amended C3 at a stored entry with non-empty
organization: both optional fields are present with the exact joined
values. -/
theorem recon_infra_join_amended_witness :
    (encodeResult (buildRecord "ts" witInfra witObservation)).lookup "asn" =
      some (Json.str "AS13335") ∧
    (encodeResult (buildRecord "ts" witInfra witObservation)).lookup "org" =
      some (Json.str "CLOUDFLARENET") := by
  have hmain := (recon_infra_join_amended "ts" witInfra witObservation).1
    ⟨13335, "CLOUDFLARENET"⟩ rfl
  exact ⟨hmain.1, hmain.2.2.1 (by decide)⟩

/-- State of the concurrent fan-in (main.go lines 96 to 199): per
discovery source its remaining emissions and whether its task has
signalled completion on the wait group; the wait-group counter; the
shared buffered conduit content and closed flag; the dedup consumer
state (seen set and fed sequence); and whether the transform stage
input has been closed. -/
structure PipeState where
  sources : List (List String × Bool)
  counter : Nat
  chanBuf : List String
  chanClosed : Bool
  seen : List String
  fed : List String
  inClosed : Bool

/-- Initial state for a collection of discovery sources: every task
pending with its emissions ahead of it, wait-group counter at the task
count, conduit empty and open, nothing consumed, input open. -/
def initState (inputs : List (List String)) : PipeState :=
  { sources := inputs.map (fun l => (l, false))
    counter := inputs.length
    chanBuf := []
    chanClosed := false
    seen := []
    fed := []
    inClosed := false }

/-- Interleaved execution steps of the fan-in tasks. emit: a running
source task sends its next identifier on the open conduit. finish: a
source task with no emissions left calls Done on the wait group.
closeChan: the coordination task returns from Wait (counter zero) and
closes the conduit. consume: the dedup consumer takes the next
buffered identifier and feeds it onward unless already seen. closeIn:
the consumer sees the conduit closed and drained, and closes the
transform stage input. -/
inductive Step : PipeState → PipeState → Prop
  | emit {s : PipeState} (pre post : List (List String × Bool))
      (x : String) (rest : List String)
      (hsrc : s.sources = pre ++ (x :: rest, false) :: post)
      (hopen : s.chanClosed = false) :
      Step s { s with sources := pre ++ (rest, false) :: post,
                      chanBuf := s.chanBuf ++ [x] }
  | finish {s : PipeState} (pre post : List (List String × Bool))
      (hsrc : s.sources = pre ++ (([] : List String), false) :: post) :
      Step s { s with sources := pre ++ (([] : List String), true) :: post,
                      counter := s.counter - 1 }
  | closeChan {s : PipeState} (hcnt : s.counter = 0)
      (hopen : s.chanClosed = false) :
      Step s { s with chanClosed := true }
  | consume {s : PipeState} (x : String) (rest : List String)
      (hbuf : s.chanBuf = x :: rest) :
      Step s { s with chanBuf := rest,
                      seen := if x ∈ s.seen then s.seen else x :: s.seen,
                      fed := if x ∈ s.seen then s.fed else s.fed ++ [x] }
  | closeIn {s : PipeState} (hdrained : s.chanBuf = [])
      (hclosed : s.chanClosed = true) (hno : s.inClosed = false) :
      Step s { s with inClosed := true }

/-- States reachable from a given state. -/
inductive Reachable (init : PipeState) : PipeState → Prop
  | refl : Reachable init init
  | tail {s t : PipeState} : Reachable init s → Step s t → Reachable init t

/-- Number of source tasks that have not yet called Done. -/
def activeCount (l : List (List String × Bool)) : Nat :=
  (l.filter (fun p => !p.2)).length

theorem activeCount_append (l1 l2 : List (List String × Bool)) :
    activeCount (l1 ++ l2) = activeCount l1 + activeCount l2 := by
  simp [activeCount, List.filter_append]

/-- Pipeline invariant: the wait-group counter tracks the unfinished
tasks exactly; a finished task has no emission left; a closed conduit
means the counter reached zero; a closed transform input means the
conduit is closed and drained. -/
def Inv (s : PipeState) : Prop :=
  s.counter = activeCount s.sources ∧
  (∀ p ∈ s.sources, p.2 = true → p.1 = []) ∧
  (s.chanClosed = true → s.counter = 0) ∧
  (s.inClosed = true → s.chanClosed = true ∧ s.chanBuf = [])

theorem inv_init (inputs : List (List String)) : Inv (initState inputs) := by
  refine ⟨?_, ?_, ?_, ?_⟩
  · show inputs.length = activeCount (inputs.map (fun l => (l, false)))
    induction inputs with
    | nil => rfl
    | cons a t ih =>
      simpa [activeCount, List.filter_cons] using ih
  · intro p hp hdone
    simp only [initState, List.mem_map] at hp
    obtain ⟨l, -, hl⟩ := hp
    rw [← hl] at hdone
    cases hdone
  · intro hcl; cases hcl
  · intro hcl; cases hcl

theorem inv_step {s t : PipeState} (hs : Inv s) (hst : Step s t) : Inv t := by
  obtain ⟨hc, hdone, hclosed, hin⟩ := hs
  cases hst with
  | emit pre post x rest hsrc hopen =>
    refine ⟨?_, ?_, ?_, ?_⟩
    · show s.counter = activeCount (pre ++ (rest, false) :: post)
      rw [hc, hsrc]
      rw [activeCount_append, activeCount_append]
      simp [activeCount, List.filter_cons]
    · intro p hp hpd
      simp only [List.mem_append, List.mem_cons] at hp
      rcases hp with hp | hp | hp
      · exact hdone p (by rw [hsrc]; exact List.mem_append_left _ hp) hpd
      · rw [hp] at hpd; cases hpd
      · exact hdone p
          (by rw [hsrc]
              exact List.mem_append_right _ (List.mem_cons_of_mem _ hp)) hpd
    · intro hcl
      show s.counter = 0
      exact absurd (hopen ▸ hcl) (by simp)
    · intro hcl
      have := hin hcl
      rw [hopen] at this
      cases this.1
  | finish pre post hsrc =>
    have hconsF : activeCount ((([] : List String), false) :: post) =
        activeCount post + 1 := by
      simp [activeCount, List.filter_cons]
    have hconsT : activeCount ((([] : List String), true) :: post) =
        activeCount post := by
      simp [activeCount, List.filter_cons]
    have hcount : s.counter = activeCount pre + activeCount post + 1 := by
      rw [hc, hsrc, activeCount_append, hconsF]
      omega
    refine ⟨?_, ?_, ?_, ?_⟩
    · show s.counter - 1 = activeCount (pre ++ (([] : List String), true) :: post)
      rw [activeCount_append, hconsT, hcount]
      omega
    · intro p hp hpd
      simp only [List.mem_append, List.mem_cons] at hp
      rcases hp with hp | hp | hp
      · exact hdone p (by rw [hsrc]; exact List.mem_append_left _ hp) hpd
      · rw [hp]
      · exact hdone p
          (by rw [hsrc]
              exact List.mem_append_right _ (List.mem_cons_of_mem _ hp)) hpd
    · intro hcl
      have h0 := hclosed hcl
      rw [h0]
    · intro hcl
      exact hin hcl
  | closeChan hcnt hopen =>
    exact ⟨hc, hdone, fun _ => hcnt, fun hcl => ⟨rfl, (hin hcl).2⟩⟩
  | consume x rest hbuf =>
    refine ⟨hc, hdone, hclosed, ?_⟩
    intro hcl
    have := (hin hcl).2
    rw [hbuf] at this
    cases this
  | closeIn hdrained hclosedIn hno =>
    exact ⟨hc, hdone, hclosed, fun _ => ⟨hclosedIn, hdrained⟩⟩

theorem reachable_inv (inputs : List (List String)) (s : PipeState)
    (h : Reachable (initState inputs) s) : Inv s := by
  induction h with
  | refl => exact inv_init inputs
  | tail _ hstep ih => exact inv_step ih hstep

/-- C2: in every reachable state of the fan-in, the conduit is closed
only once every discovery source task has finished and has nothing
left to emit, and the transform stage input is closed only with the
conduit closed and drained — hence the downstream consumer never sees
end-of-input while a discovery task can still produce an
identifier. -/
theorem recon_conduit_close_order (inputs : List (List String))
    (s : PipeState) (h : Reachable (initState inputs) s) :
    (s.chanClosed = true →
       ∀ p ∈ s.sources, p.1 = ([] : List String) ∧ p.2 = true) ∧
    (s.inClosed = true →
       s.chanClosed = true ∧ s.chanBuf = [] ∧
       ∀ p ∈ s.sources, p.1 = ([] : List String) ∧ p.2 = true) := by
  obtain ⟨hc, hdone, hclosed, hin⟩ := reachable_inv inputs s h
  have hall : s.chanClosed = true →
      ∀ p ∈ s.sources, p.1 = ([] : List String) ∧ p.2 = true := by
    intro hcl p hp
    have h0 : activeCount s.sources = 0 := by rw [← hc]; exact hclosed hcl
    have hfilter : s.sources.filter (fun p => !p.2) = [] :=
      List.length_eq_zero.mp h0
    have hpd : p.2 = true := by
      by_contra hcontra
      have hmemf : p ∈ s.sources.filter (fun p => !p.2) :=
        List.mem_filter.mpr ⟨hp, by simp [Bool.eq_false_iff.mpr hcontra]⟩
      rw [hfilter] at hmemf
      cases hmemf
    exact ⟨hdone p hp hpd, hpd⟩
  refine ⟨hall, ?_⟩
  intro hcl
  obtain ⟨hclosed2, hdrained⟩ := hin hcl
  exact ⟨hclosed2, hdrained, hall hclosed2⟩

/-- Final state of a demonstration run with one source emitting one
identifier: emit, finish, closeChan, consume, closeIn. -/
def pipeDemoFinal : PipeState :=
  { sources := [(([] : List String), true)]
    counter := 0
    chanBuf := []
    chanClosed := true
    seen := ["a"]
    fed := ["a"]
    inClosed := true }

/-- Witness for C2: the demonstration run reaches its final state and
the close-ordering conclusion holds there. -/
theorem recon_conduit_close_order_witness :
    (pipeDemoFinal.chanClosed = true →
       ∀ p ∈ pipeDemoFinal.sources, p.1 = ([] : List String) ∧ p.2 = true) ∧
    (pipeDemoFinal.inClosed = true →
       pipeDemoFinal.chanClosed = true ∧ pipeDemoFinal.chanBuf = [] ∧
       ∀ p ∈ pipeDemoFinal.sources,
         p.1 = ([] : List String) ∧ p.2 = true) := by
  refine recon_conduit_close_order [["a"]] pipeDemoFinal ?_
  have h1 : Step (initState [["a"]])
      { sources := [(([] : List String), false)], counter := 1,
        chanBuf := ["a"], chanClosed := false, seen := [], fed := [],
        inClosed := false } :=
    Step.emit [] [] "a" [] rfl rfl
  have h2 : Step
      { sources := [(([] : List String), false)], counter := 1,
        chanBuf := ["a"], chanClosed := false, seen := [], fed := [],
        inClosed := false }
      { sources := [(([] : List String), true)], counter := 0,
        chanBuf := ["a"], chanClosed := false, seen := [], fed := [],
        inClosed := false } :=
    Step.finish [] [] rfl
  have h3 : Step
      { sources := [(([] : List String), true)], counter := 0,
        chanBuf := ["a"], chanClosed := false, seen := [], fed := [],
        inClosed := false }
      { sources := [(([] : List String), true)], counter := 0,
        chanBuf := ["a"], chanClosed := true, seen := [], fed := [],
        inClosed := false } :=
    Step.closeChan rfl rfl
  have h4 : Step
      { sources := [(([] : List String), true)], counter := 0,
        chanBuf := ["a"], chanClosed := true, seen := [], fed := [],
        inClosed := false }
      { sources := [(([] : List String), true)], counter := 0,
        chanBuf := [], chanClosed := true, seen := ["a"], fed := ["a"],
        inClosed := false } :=
    Step.consume "a" [] rfl
  have h5 : Step
      { sources := [(([] : List String), true)], counter := 0,
        chanBuf := [], chanClosed := true, seen := ["a"], fed := ["a"],
        inClosed := false }
      pipeDemoFinal :=
    Step.closeIn rfl rfl rfl
  exact Reachable.tail
    (Reachable.tail (Reachable.tail (Reachable.tail
      (Reachable.tail Reachable.refl h1) h2) h3) h4) h5

end ReconEngine
